import Mathlib

/-!
Shallow embedding of `src/mlp/learning_rules.py` (the learning-rule classes
`GradientDescentLearningRule`, `MomentumLearningRule`, `RMSPropLearningRule`
and `AdamLearningRule`).

Modelling conventions
* A numpy array (one parameter tensor) is a `Tensor := List ℚ` of its
  elements; machine floats are modelled by exact rationals.
* A parameter set is a `List Tensor`; the python lists `self.params`,
  `self.moms`, `self.averages` are explicit state arguments and results.
* Python `for a, b in zip(xs, ys)` loops that mutate in place are modelled by
  structural recursion that stops when either list is exhausted and leaves the
  remaining suffix of the mutated list unchanged, exactly as the python loop
  leaves the arrays that were never visited.
* The elementwise numpy operators on shape-matched arrays are `List.zipWith`
  and `List.map`.
* `average ** 0.5` is a real square root the rationals do not have; the step
  functions of RMSProp and Adam therefore take the elementwise square-root
  map as an explicit function argument `sq`, keeping every definition
  computable while preserving the exact data flow of the source.
* A python `assert` in a constructor and the `TypeError` raised inside the
  broken `reset` loops are modelled with explicit result types carrying the
  post-state.
-/

/-- One numeric tensor (a numpy array), flattened to its elements. -/
abbrev Tensor := List ℚ

/-- Elementwise scaling, numpy `c * t` / in-place `t *= c`. -/
def tScale (c : ℚ) (t : Tensor) : Tensor := t.map (fun x => c * x)

/-- Elementwise addition of shape-matched arrays, numpy `a += b`. -/
def tAdd (a b : Tensor) : Tensor := List.zipWith (fun x y => x + y) a b

/-- Elementwise subtraction of shape-matched arrays, numpy `a -= b`. -/
def tSub (a b : Tensor) : Tensor := List.zipWith (fun x y => x - y) a b

/-- Elementwise square, numpy `t ** 2`. -/
def tSquare (t : Tensor) : Tensor := t.map (fun x => x * x)

/-- Elementwise division of shape-matched arrays, numpy `a / b`. -/
def tDiv (a b : Tensor) : Tensor := List.zipWith (fun x y => x / y) a b

/-- Elementwise constant shift, numpy `t + c`. -/
def tAddConst (c : ℚ) (t : Tensor) : Tensor := t.map (fun x => x + c)

/-- Numpy `np.zeros_like(t)`. -/
def zerosLike (t : Tensor) : Tensor := t.map (fun _ => 0)

/-- Numpy `np.ones_like(t)`. -/
def onesLike (t : Tensor) : Tensor := t.map (fun _ => 1)

/-- The fixed division guard `1e-8` appearing in the RMSProp and Adam update
expressions. -/
def eps : ℚ := 1 / 100000000

/-- Result of constructing a rule: the python `assert` raises on a bad
hyperparameter, modelled as `invalidHyperparameter`. -/
inductive Construct (α : Type) where
  | ok (rule : α)
  | invalidHyperparameter
deriving DecidableEq, Repr

/-- Hyperparameter state of `GradientDescentLearningRule`. -/
structure GDRule where
  learning_rate : ℚ
deriving DecidableEq, Repr

/-- Hyperparameter state of `MomentumLearningRule`. -/
structure MomentumRule where
  learning_rate : ℚ
  mom_coeff : ℚ
deriving DecidableEq, Repr

/-- Hyperparameter state of `RMSPropLearningRule`. -/
structure RMSPropRule where
  learning_rate : ℚ
  decay_rate : ℚ
deriving DecidableEq, Repr

/-- Hyperparameter state of `AdamLearningRule`. -/
structure AdamRule where
  learning_rate : ℚ
  mom_coeff : ℚ
  decay_rate : ℚ
deriving DecidableEq, Repr

/-- `GradientDescentLearningRule.__init__`: `assert learning_rate > 0.`. -/
def gdConstruct (lr : ℚ) : Construct GDRule :=
  if 0 < lr then Construct.ok ⟨lr⟩ else Construct.invalidHyperparameter

/-- `MomentumLearningRule.__init__`: the super call asserts
`learning_rate > 0.`, then `assert mom_coeff >= 0. and mom_coeff <= 1.`. -/
def momentumConstruct (lr c : ℚ) : Construct MomentumRule :=
  if 0 < lr then
    if 0 ≤ c ∧ c ≤ 1 then Construct.ok ⟨lr, c⟩
    else Construct.invalidHyperparameter
  else Construct.invalidHyperparameter

/-- `RMSPropLearningRule.__init__`: the super call asserts
`learning_rate > 0.`, then `assert decay_rate >= 0. and decay_rate <= 1.`. -/
def rmspropConstruct (lr d : ℚ) : Construct RMSPropRule :=
  if 0 < lr then
    if 0 ≤ d ∧ d ≤ 1 then Construct.ok ⟨lr, d⟩
    else Construct.invalidHyperparameter
  else Construct.invalidHyperparameter

/-- `AdamLearningRule.__init__`: the super call asserts `learning_rate > 0.`,
then `mom_coeff` is range-checked, then `decay_rate`. -/
def adamConstruct (lr c d : ℚ) : Construct AdamRule :=
  if 0 < lr then
    if 0 ≤ c ∧ c ≤ 1 then
      if 0 ≤ d ∧ d ≤ 1 then Construct.ok ⟨lr, c, d⟩
      else Construct.invalidHyperparameter
    else Construct.invalidHyperparameter
  else Construct.invalidHyperparameter

/-- `GradientDescentLearningRule.update_params`: the loop
`for param, grad in zip(self.params, grads): param -= self.learning_rate * grad`.
`zip` stops at the shorter list; parameters never visited stay unchanged. -/
def gdUpdate (lr : ℚ) : List Tensor → List Tensor → List Tensor
  | p :: ps, g :: gs => tSub p (tScale lr g) :: gdUpdate lr ps gs
  | ps, _ => ps

/-- `MomentumLearningRule.initialise`: `self.moms` gets one
`np.zeros_like(param)` per parameter. -/
def momentumInitialise (params : List Tensor) : List Tensor :=
  params.map zerosLike

/-- `MomentumLearningRule.update_params`: for each zipped triple, in order,
`mom *= self.mom_coeff`, `mom -= self.learning_rate * grad`,
`param += mom`.  Returns the updated `(params, moms)`; the suffixes the
truncating `zip` never visits are returned unchanged. -/
def momentumUpdate (lr c : ℚ) :
    List Tensor → List Tensor → List Tensor → List Tensor × List Tensor
  | p :: ps, m :: ms, g :: gs =>
    let m2 := tSub (tScale c m) (tScale lr g)
    let rest := momentumUpdate lr c ps ms gs
    (tAdd p m2 :: rest.1, m2 :: rest.2)
  | ps, ms, _ => (ps, ms)

/-- `RMSPropLearningRule.initialise`: `self.averages` gets one
`np.ones_like(param)` per parameter. -/
def rmspropInitialise (params : List Tensor) : List Tensor :=
  params.map onesLike

/-- `RMSPropLearningRule.update_params`: for each zipped triple, in order,
`average *= self.decay_rate`, `average += (1 - self.decay_rate) * grad ** 2`,
`param -= (self.learning_rate * grad) / (average ** 0.5 + 1e-8)`.
The elementwise square root `average ** 0.5` is the argument `sq`. -/
def rmspropUpdate (sq : ℚ → ℚ) (lr d : ℚ) :
    List Tensor → List Tensor → List Tensor → List Tensor × List Tensor
  | p :: ps, a :: as_, g :: gs =>
    let a2 := tAdd (tScale d a) (tScale (1 - d) (tSquare g))
    let rest := rmspropUpdate sq lr d ps as_ gs
    (tSub p (tDiv (tScale lr g) (tAddConst eps (a2.map sq))) :: rest.1,
     a2 :: rest.2)
  | ps, as_, _ => (ps, as_)

/-- `AdamLearningRule.initialise`: both `self.averages` and `self.moms` get
one `np.zeros_like(param)` per parameter. -/
def adamInitialise (params : List Tensor) : List Tensor × List Tensor :=
  (params.map zerosLike, params.map zerosLike)

/-- `AdamLearningRule.update_params`: for each zipped quadruple, in order,
`mom *= self.mom_coeff`, `mom += (1 - self.mom_coeff) * grad`,
`average *= self.decay_rate`, `average += (1 - self.decay_rate) * grad ** 2`,
`param -= (self.learning_rate * mom) / (average ** 0.5 + 1e-8)`.
Returns the updated `(params, moms, averages)`. -/
def adamUpdate (sq : ℚ → ℚ) (lr c d : ℚ) :
    List Tensor → List Tensor → List Tensor → List Tensor →
    List Tensor × List Tensor × List Tensor
  | p :: ps, m :: ms, a :: as_, g :: gs =>
    let m2 := tAdd (tScale c m) (tScale (1 - c) g)
    let a2 := tAdd (tScale d a) (tScale (1 - d) (tSquare g))
    let rest := adamUpdate sq lr c d ps ms as_ gs
    (tSub p (tDiv (tScale lr m2) (tAddConst eps (a2.map sq))) :: rest.1,
     m2 :: rest.2.1, a2 :: rest.2.2)
  | ps, ms, as_, _ => (ps, ms, as_)

/-- Outcome of a `reset` call: either it returned normally or a `TypeError`
escaped; in both cases the accumulator list left behind is carried. -/
inductive ResetOutcome where
  | ok (state : List Tensor)
  | typeError (state : List Tensor)
deriving DecidableEq, Repr

/-- `MomentumLearningRule.reset`: the loop is `for mom in zip(self.moms)`,
so `mom` is bound to a one-element tuple, and `mom *= 0.` multiplies a tuple
by the float `0.`, which raises `TypeError` on the first iteration before
anything is mutated.  With an empty list the loop body never runs and the
call returns normally. -/
def momentumReset (moms : List Tensor) : ResetOutcome :=
  match moms with
  | [] => ResetOutcome.ok []
  | m :: ms => ResetOutcome.typeError (m :: ms)

/-- `RMSPropLearningRule.reset`: same `for average in zip(self.averages)`
pattern, raising `TypeError` on the first iteration of a non-empty list. -/
def rmspropReset (averages : List Tensor) : ResetOutcome :=
  match averages with
  | [] => ResetOutcome.ok []
  | a :: as_ => ResetOutcome.typeError (a :: as_)

/-- Outcome of `AdamLearningRule.reset`, carrying both accumulator lists. -/
inductive AdamResetOutcome where
  | ok (averages moms : List Tensor)
  | typeError (averages moms : List Tensor)
deriving DecidableEq, Repr

/-- `AdamLearningRule.reset`: first `for average in zip(self.averages)` runs,
raising `TypeError` on a non-empty `averages` before the momentum loop is
reached; with empty `averages` the second loop `for mom in zip(self.moms)`
raises on a non-empty `moms`; only with both lists empty does the call
return.  Nothing is ever mutated. -/
def adamReset (averages moms : List Tensor) : AdamResetOutcome :=
  match averages with
  | a :: as_ => AdamResetOutcome.typeError (a :: as_) moms
  | [] =>
    match moms with
    | [] => AdamResetOutcome.ok [] []
    | m :: ms => AdamResetOutcome.typeError [] (m :: ms)

/-- A whole training run of plain gradient descent: successive
`update_params` calls with the gradient lists in `gradSeq`. -/
def gdRun (lr : ℚ) (params : List Tensor) (gradSeq : List (List Tensor)) :
    List Tensor :=
  gradSeq.foldl (fun ps gs => gdUpdate lr ps gs) params

/-- A whole training run of the momentum rule; state is `(params, moms)`. -/
def momentumRun (lr c : ℚ) (params moms : List Tensor)
    (gradSeq : List (List Tensor)) : List Tensor × List Tensor :=
  gradSeq.foldl (fun st gs => momentumUpdate lr c st.1 st.2 gs) (params, moms)

/-- A whole training run of RMSProp; state is `(params, averages)`. -/
def rmspropRun (sq : ℚ → ℚ) (lr d : ℚ) (params averages : List Tensor)
    (gradSeq : List (List Tensor)) : List Tensor × List Tensor :=
  gradSeq.foldl (fun st gs => rmspropUpdate sq lr d st.1 st.2 gs)
    (params, averages)

/-- A whole training run of Adam; state is `(params, moms, averages)`. -/
def adamRun (sq : ℚ → ℚ) (lr c d : ℚ) (params moms averages : List Tensor)
    (gradSeq : List (List Tensor)) :
    List Tensor × List Tensor × List Tensor :=
  gradSeq.foldl (fun st gs => adamUpdate sq lr c d st.1 st.2.1 st.2.2 gs)
    (params, moms, averages)

/-- Every element of every tensor in the list is nonnegative. -/
def tensorsNonneg (ts : List Tensor) : Prop :=
  ∀ t ∈ ts, ∀ x ∈ t, 0 ≤ x

/-- Element `j` of tensor `i` of a parameter (or accumulator) list, when both
indices are in range. -/
def elemAt (ts : List Tensor) (i j : ℕ) : Option ℚ :=
  ts[i]?.bind (fun t => t[j]?)

theorem getElem?_map_some {α β : Type} {f : α → β} :
    ∀ (a : List α) (j : ℕ) (x : α), a[j]? = some x → (a.map f)[j]? = some (f x) := by
  intro a
  induction a with
  | nil => intro j x h; simp at h
  | cons y ys ih =>
    intro j x h
    cases j with
    | zero => simp at h; simp [h]
    | succ j => simp at h ⊢; exact ⟨x, h, rfl⟩

theorem getElem?_zipWith_some {α β γ : Type} {f : α → β → γ} :
    ∀ (a : List α) (b : List β) (j : ℕ) (x : α) (y : β), a[j]? = some x → b[j]? = some y →
      (List.zipWith f a b)[j]? = some (f x y) := by
  intro a
  induction a with
  | nil => intro b j x y h; simp at h
  | cons u us ih =>
    intro b j x y h1 h2
    cases b with
    | nil => simp at h2
    | cons v vs =>
      cases j with
      | zero => simp at h1 h2; simp [h1, h2]
      | succ j => simp at h1 h2 ⊢; exact ih vs j x y h1 h2

theorem mem_zipWith {α β γ : Type} {f : α → β → γ} :
    ∀ {a : List α} {b : List β} {x : γ}, x ∈ List.zipWith f a b →
      ∃ u v, u ∈ a ∧ v ∈ b ∧ x = f u v := by
  intro a
  induction a with
  | nil => intro b x h; simp at h
  | cons u us ih =>
    intro b x h
    cases b with
    | nil => simp at h
    | cons v vs =>
      simp only [List.zipWith_cons_cons, List.mem_cons] at h
      rcases h with h | h
      · exact ⟨u, v, List.mem_cons_self u us, List.mem_cons_self v vs, h⟩
      · rcases ih h with ⟨u2, v2, hu, hv, hx⟩
        exact ⟨u2, v2, List.mem_cons_of_mem u hu, List.mem_cons_of_mem v hv, hx⟩

theorem gdUpdate_length (lr : ℚ) :
    ∀ (ps gs : List Tensor), (gdUpdate lr ps gs).length = ps.length := by
  intro ps
  induction ps with
  | nil => intro gs; cases gs <;> simp [gdUpdate]
  | cons p ps ih =>
    intro gs
    cases gs with
    | nil => simp [gdUpdate]
    | cons g gs => simp [gdUpdate, ih]

theorem gdUpdate_getElem? (lr : ℚ) :
    ∀ (ps gs : List Tensor) (i : ℕ) (p g : Tensor),
      ps[i]? = some p → gs[i]? = some g →
      (gdUpdate lr ps gs)[i]? = some (tSub p (tScale lr g)) := by
  intro ps
  induction ps with
  | nil => intro gs i p g hp; simp at hp
  | cons q qs ih =>
    intro gs i p g hp hg
    cases gs with
    | nil => simp at hg
    | cons r rs =>
      cases i with
      | zero =>
        simp at hp hg
        subst hp; subst hg
        simp [gdUpdate]
      | succ i =>
        simp at hp hg ⊢
        simp [gdUpdate]
        exact ih rs i p g hp hg

theorem gdUpdate_suffix (lr : ℚ) :
    ∀ (ps gs : List Tensor) (i : ℕ), gs.length ≤ i →
      (gdUpdate lr ps gs)[i]? = ps[i]? := by
  intro ps
  induction ps with
  | nil => intro gs i hi; cases gs <;> simp [gdUpdate]
  | cons p ps ih =>
    intro gs i hi
    cases gs with
    | nil => simp [gdUpdate]
    | cons g gs =>
      cases i with
      | zero => simp at hi
      | succ i =>
        simp [gdUpdate]
        exact ih gs i (Nat.le_of_succ_le_succ hi)

theorem momentumUpdate_suffix (lr c : ℚ) :
    ∀ (ps ms gs : List Tensor) (i : ℕ), gs.length ≤ i →
      (momentumUpdate lr c ps ms gs).1[i]? = ps[i]? ∧
      (momentumUpdate lr c ps ms gs).2[i]? = ms[i]? := by
  intro ps
  induction ps with
  | nil => intro ms gs i hi; simp [momentumUpdate]
  | cons p ps ih =>
    intro ms gs i hi
    cases ms with
    | nil => simp [momentumUpdate]
    | cons m ms =>
      cases gs with
      | nil => simp [momentumUpdate]
      | cons g gs =>
        cases i with
        | zero => simp at hi
        | succ i =>
          have h := ih ms gs i (Nat.le_of_succ_le_succ hi)
          simp [momentumUpdate]
          exact ⟨h.1, h.2⟩

theorem rmspropUpdate_suffix (sq : ℚ → ℚ) (lr d : ℚ) :
    ∀ (ps as_ gs : List Tensor) (i : ℕ), gs.length ≤ i →
      (rmspropUpdate sq lr d ps as_ gs).1[i]? = ps[i]? ∧
      (rmspropUpdate sq lr d ps as_ gs).2[i]? = as_[i]? := by
  intro ps
  induction ps with
  | nil => intro as_ gs i hi; simp [rmspropUpdate]
  | cons p ps ih =>
    intro as_ gs i hi
    cases as_ with
    | nil => simp [rmspropUpdate]
    | cons a as2 =>
      cases gs with
      | nil => simp [rmspropUpdate]
      | cons g gs =>
        cases i with
        | zero => simp at hi
        | succ i =>
          have h := ih as2 gs i (Nat.le_of_succ_le_succ hi)
          simp [rmspropUpdate]
          exact ⟨h.1, h.2⟩

theorem adamUpdate_suffix (sq : ℚ → ℚ) (lr c d : ℚ) :
    ∀ (ps ms as_ gs : List Tensor) (i : ℕ), gs.length ≤ i →
      (adamUpdate sq lr c d ps ms as_ gs).1[i]? = ps[i]? ∧
      (adamUpdate sq lr c d ps ms as_ gs).2.1[i]? = ms[i]? ∧
      (adamUpdate sq lr c d ps ms as_ gs).2.2[i]? = as_[i]? := by
  intro ps
  induction ps with
  | nil => intro ms as_ gs i hi; simp [adamUpdate]
  | cons p ps ih =>
    intro ms as_ gs i hi
    cases ms with
    | nil => simp [adamUpdate]
    | cons m ms =>
      cases as_ with
      | nil => simp [adamUpdate]
      | cons a as2 =>
        cases gs with
        | nil => simp [adamUpdate]
        | cons g gs =>
          cases i with
          | zero => simp at hi
          | succ i =>
            have h := ih ms as2 gs i (Nat.le_of_succ_le_succ hi)
            simp [adamUpdate]
            exact ⟨h.1, h.2.1, h.2.2⟩

/-- C4: the spec states that `reset()` zeroes every accumulator tensor in
place and leaves parameters alone, and the three reset docstrings in the
source say the same; but the code iterates `zip(accumulator_list)`, binds
each loop variable to a one-element tuple, and `tuple *= 0.` raises
`TypeError` on the first iteration, so on any initialised rule with at least
one parameter `reset` raises and zeroes nothing.  Evaluated here on a
one-parameter rule of each variant. -/
theorem reset_zeroing_code_bug :
    momentumReset (momentumInitialise [[1]]) = ResetOutcome.typeError [[0]] ∧
    rmspropReset (rmspropInitialise [[1]]) = ResetOutcome.typeError [[1]] ∧
    adamReset (adamInitialise [[1]]).1 (adamInitialise [[1]]).2 =
      AdamResetOutcome.typeError [[0]] [[0]] := by
  decide

/-- C5: for each of the three stateful rules, once initialised from a
non-empty parameter list (so every accumulator list has one tensor per
parameter), `reset()` raises a `TypeError` — `zip` of the accumulator list
yields one-element tuples and multiplying a tuple by the float `0.` fails —
and the accumulator lists are left exactly as they were. -/
theorem reset_raises_typeerror (params moms avgs aavgs amoms : List Tensor)
    (hp : params ≠ []) (hm : moms.length = params.length)
    (ha : avgs.length = params.length) (haa : aavgs.length = params.length)
    (ham : amoms.length = params.length) :
    momentumReset moms = ResetOutcome.typeError moms ∧
    rmspropReset avgs = ResetOutcome.typeError avgs ∧
    adamReset aavgs amoms = AdamResetOutcome.typeError aavgs amoms := by
  have hne : ∀ (l : List Tensor), l.length = params.length → l ≠ [] := by
    intro l hl hnil
    subst hnil
    exact hp (List.length_eq_zero.mp hl.symm)
  refine ⟨?_, ?_, ?_⟩
  · cases moms with
    | nil => exact absurd rfl (hne [] hm)
    | cons m ms => simp [momentumReset]
  · cases avgs with
    | nil => exact absurd rfl (hne [] ha)
    | cons a as2 => simp [rmspropReset]
  · cases aavgs with
    | nil => exact absurd rfl (hne [] haa)
    | cons a as2 => simp [adamReset]

theorem reset_raises_typeerror_witness :
    momentumReset [[2]] = ResetOutcome.typeError [[2]] ∧
    rmspropReset [[3]] = ResetOutcome.typeError [[3]] ∧
    adamReset [[4]] [[5]] = AdamResetOutcome.typeError [[4]] [[5]] :=
  reset_raises_typeerror [[1]] [[2]] [[3]] [[4]] [[5]]
    (by decide) (by decide) (by decide) (by decide) (by decide)

/-- C6 counterexample: updating a two-parameter gradient-descent rule with a
one-gradient list raises nothing and does modify a parameter — with
`learning_rate = 1`, parameters `[[1], [2]]` and gradients `[[1]]` the call
completes and the first parameter becomes `[0]`, refuting both the claimed
`ShapeMismatch` error and the claim that no tensor is modified. -/
theorem update_length_mismatch_counterexample :
    gdUpdate 1 [[1], [2]] [[1]] = [[0], [2]] ∧
    ([[0], [2]] : List Tensor) ≠ [[1], [2]] := by
  constructor
  · norm_num [gdUpdate, tSub, tScale]
  · norm_num

/-- C6 amended: an update call whose gradient sequence is shorter than the
parameter sequence raises no error; `zip` truncates the loop, so every
parameter and accumulator tensor at an index at or past the gradient count
is left exactly as it was (the visited prefix is updated by the usual
recurrence). -/
theorem update_length_mismatch_truncates (sq : ℚ → ℚ) (lr c d : ℚ)
    (ps ms as_ gs : List Tensor) (i : ℕ) (hi : gs.length ≤ i) :
    (gdUpdate lr ps gs)[i]? = ps[i]? ∧
    (momentumUpdate lr c ps ms gs).1[i]? = ps[i]? ∧
    (momentumUpdate lr c ps ms gs).2[i]? = ms[i]? ∧
    (rmspropUpdate sq lr d ps as_ gs).1[i]? = ps[i]? ∧
    (rmspropUpdate sq lr d ps as_ gs).2[i]? = as_[i]? ∧
    (adamUpdate sq lr c d ps ms as_ gs).1[i]? = ps[i]? ∧
    (adamUpdate sq lr c d ps ms as_ gs).2.1[i]? = ms[i]? ∧
    (adamUpdate sq lr c d ps ms as_ gs).2.2[i]? = as_[i]? := by
  have h1 := gdUpdate_suffix lr ps gs i hi
  have h2 := momentumUpdate_suffix lr c ps ms gs i hi
  have h3 := rmspropUpdate_suffix sq lr d ps as_ gs i hi
  have h4 := adamUpdate_suffix sq lr c d ps ms as_ gs i hi
  exact ⟨h1, h2.1, h2.2, h3.1, h3.2, h4.1, h4.2.1, h4.2.2⟩

theorem update_length_mismatch_truncates_witness :
    (gdUpdate 1 [[1], [2]] [[1]])[1]? = some [2] ∧
    (momentumUpdate 1 (1/2) [[1], [2]] [[0], [0]] [[1]]).2[1]? = some [0] :=
  have h := update_length_mismatch_truncates (fun x => x) 1 (1/2) (1/2)
    [[1], [2]] [[0], [0]] [[0], [0]] [[1]] 1 (by decide)
  ⟨h.1, h.2.2.1⟩

/-- C7: a gradient-descent update with a matching-length gradient list keeps
the parameter count and sets element `j` of parameter `i` to
`parameter[i][j] - learning_rate * gradient[i][j]`, the in-place elementwise
`param -= learning_rate * grad`; the model returns the mutated parameter
list and nothing else, matching the no-return-value contract. -/
theorem gd_update_elementwise (lr : ℚ) (ps gs : List Tensor)
    (hlen : gs.length = ps.length) :
    (gdUpdate lr ps gs).length = ps.length ∧
    ∀ (i j : ℕ) (x gr : ℚ), elemAt ps i j = some x → elemAt gs i j = some gr →
      elemAt (gdUpdate lr ps gs) i j = some (x - lr * gr) := by
  refine ⟨gdUpdate_length lr ps gs, ?_⟩
  intro i j x gr hx hgr
  rcases Option.bind_eq_some.mp hx with ⟨p, hp, hpx⟩
  rcases Option.bind_eq_some.mp hgr with ⟨g, hg, hgx⟩
  have hres := gdUpdate_getElem? lr ps gs i p g hp hg
  have hscale : (tScale lr g)[j]? = some (lr * gr) :=
    getElem?_map_some g j gr hgx
  have hsub : (tSub p (tScale lr g))[j]? = some (x - lr * gr) :=
    getElem?_zipWith_some p (tScale lr g) j x (lr * gr) hpx hscale
  simp [elemAt, hres, hsub]

theorem gd_update_elementwise_witness :
    (gdUpdate (1/2) [[4]] [[2]]).length = 1 ∧
    elemAt (gdUpdate (1/2) [[4]] [[2]]) 0 0 = some (4 - 1/2 * 2) :=
  have h := gd_update_elementwise (1/2) [[4]] [[2]] (by decide)
  ⟨h.1, h.2 0 0 4 2 (by decide) (by decide)⟩

/-- C8: constructing any rule with `learning_rate ≤ 0` fails the
`learning_rate > 0` assert; a momentum coefficient or decay rate strictly
outside `[0, 1]` fails its range assert; and the closed-interval boundary
values `0` and `1` are accepted whenever the learning rate is positive. -/
theorem construct_validation (lr c d : ℚ) :
    (lr ≤ 0 →
      gdConstruct lr = Construct.invalidHyperparameter ∧
      momentumConstruct lr c = Construct.invalidHyperparameter ∧
      rmspropConstruct lr d = Construct.invalidHyperparameter ∧
      adamConstruct lr c d = Construct.invalidHyperparameter) ∧
    (c < 0 ∨ 1 < c →
      momentumConstruct lr c = Construct.invalidHyperparameter ∧
      adamConstruct lr c d = Construct.invalidHyperparameter) ∧
    (d < 0 ∨ 1 < d →
      rmspropConstruct lr d = Construct.invalidHyperparameter ∧
      (0 ≤ c → c ≤ 1 → adamConstruct lr c d = Construct.invalidHyperparameter)) ∧
    (0 < lr → 0 ≤ c → c ≤ 1 → 0 ≤ d → d ≤ 1 →
      gdConstruct lr = Construct.ok ⟨lr⟩ ∧
      momentumConstruct lr c = Construct.ok ⟨lr, c⟩ ∧
      rmspropConstruct lr d = Construct.ok ⟨lr, d⟩ ∧
      adamConstruct lr c d = Construct.ok ⟨lr, c, d⟩) := by
  refine ⟨?_, ?_, ?_, ?_⟩
  · intro h
    have hnot : ¬ 0 < lr := not_lt.mpr h
    simp [gdConstruct, momentumConstruct, rmspropConstruct, adamConstruct, hnot]
  · intro h
    have hc : ¬ (0 ≤ c ∧ c ≤ 1) := by
      rcases h with h | h
      · exact fun hc2 => absurd hc2.1 (not_le.mpr h)
      · exact fun hc2 => absurd hc2.2 (not_le.mpr h)
    by_cases hlr : 0 < lr <;>
      simp [momentumConstruct, adamConstruct, hlr, hc]
  · intro h
    have hd : ¬ (0 ≤ d ∧ d ≤ 1) := by
      rcases h with h | h
      · exact fun hd2 => absurd hd2.1 (not_le.mpr h)
      · exact fun hd2 => absurd hd2.2 (not_le.mpr h)
    refine ⟨?_, ?_⟩
    · by_cases hlr : 0 < lr <;> simp [rmspropConstruct, hlr, hd]
    · intro h0c h1c
      by_cases hlr : 0 < lr <;>
        simp [adamConstruct, hlr, h0c, h1c, hd]
  · intro hlr h0c h1c h0d h1d
    simp [gdConstruct, momentumConstruct, rmspropConstruct, adamConstruct,
      hlr, h0c, h1c, h0d, h1d]

theorem construct_validation_witness :
    gdConstruct (-1) = Construct.invalidHyperparameter ∧
    momentumConstruct 1 2 = Construct.invalidHyperparameter ∧
    adamConstruct 1 0 1 = Construct.ok ⟨1, 0, 1⟩ :=
  ⟨((construct_validation (-1) 0 0).1 (by decide)).1,
   ((construct_validation 1 2 0).2.1 (Or.inr (by decide))).1,
   ((construct_validation 1 0 1).2.2.2 (by decide) (by decide) (by decide)
     (by decide) (by decide)).2.2.2⟩

theorem momentumUpdate_getElem? (lr c : ℚ) :
    ∀ (ps ms gs : List Tensor) (i : ℕ) (p m g : Tensor),
      ps[i]? = some p → ms[i]? = some m → gs[i]? = some g →
      (momentumUpdate lr c ps ms gs).2[i]?
        = some (tSub (tScale c m) (tScale lr g)) ∧
      (momentumUpdate lr c ps ms gs).1[i]?
        = some (tAdd p (tSub (tScale c m) (tScale lr g))) := by
  intro ps
  induction ps with
  | nil => intro ms gs i p m g hp; simp at hp
  | cons q qs ih =>
    intro ms gs i p m g hp hm hg
    cases ms with
    | nil => simp at hm
    | cons n ns =>
      cases gs with
      | nil => simp at hg
      | cons r rs =>
        cases i with
        | zero =>
          simp at hp hm hg
          subst hp; subst hm; subst hg
          simp [momentumUpdate]
        | succ i =>
          simp at hp hm hg
          have h := ih ns rs i p m g hp hm hg
          simp [momentumUpdate]
          exact ⟨h.1, h.2⟩

theorem rmspropUpdate_getElem? (sq : ℚ → ℚ) (lr d : ℚ) :
    ∀ (ps as_ gs : List Tensor) (i : ℕ) (p a g : Tensor),
      ps[i]? = some p → as_[i]? = some a → gs[i]? = some g →
      (rmspropUpdate sq lr d ps as_ gs).2[i]?
        = some (tAdd (tScale d a) (tScale (1 - d) (tSquare g))) ∧
      (rmspropUpdate sq lr d ps as_ gs).1[i]?
        = some (tSub p (tDiv (tScale lr g) (tAddConst eps
            ((tAdd (tScale d a) (tScale (1 - d) (tSquare g))).map sq)))) := by
  intro ps
  induction ps with
  | nil => intro as_ gs i p a g hp; simp at hp
  | cons q qs ih =>
    intro as_ gs i p a g hp ha hg
    cases as_ with
    | nil => simp at ha
    | cons b bs =>
      cases gs with
      | nil => simp at hg
      | cons r rs =>
        cases i with
        | zero =>
          simp at hp ha hg
          subst hp; subst ha; subst hg
          simp [rmspropUpdate]
        | succ i =>
          simp at hp ha hg
          have h := ih bs rs i p a g hp ha hg
          simp [rmspropUpdate]
          exact ⟨h.1, h.2⟩

theorem adamUpdate_getElem? (sq : ℚ → ℚ) (lr c d : ℚ) :
    ∀ (ps ms as_ gs : List Tensor) (i : ℕ) (p m a g : Tensor),
      ps[i]? = some p → ms[i]? = some m → as_[i]? = some a → gs[i]? = some g →
      (adamUpdate sq lr c d ps ms as_ gs).2.1[i]?
        = some (tAdd (tScale c m) (tScale (1 - c) g)) ∧
      (adamUpdate sq lr c d ps ms as_ gs).2.2[i]?
        = some (tAdd (tScale d a) (tScale (1 - d) (tSquare g))) ∧
      (adamUpdate sq lr c d ps ms as_ gs).1[i]?
        = some (tSub p (tDiv (tScale lr (tAdd (tScale c m) (tScale (1 - c) g)))
            (tAddConst eps
              ((tAdd (tScale d a) (tScale (1 - d) (tSquare g))).map sq)))) := by
  intro ps
  induction ps with
  | nil => intro ms as_ gs i p m a g hp; simp at hp
  | cons q qs ih =>
    intro ms as_ gs i p m a g hp hm ha hg
    cases ms with
    | nil => simp at hm
    | cons n ns =>
      cases as_ with
      | nil => simp at ha
      | cons b bs =>
        cases gs with
        | nil => simp at hg
        | cons r rs =>
          cases i with
          | zero =>
            simp at hp hm ha hg
            subst hp; subst hm; subst ha; subst hg
            simp [adamUpdate]
          | succ i =>
            simp at hp hm ha hg
            have h := ih ns bs rs i p m a g hp hm ha hg
            simp [adamUpdate]
            exact ⟨h.1, h.2.1, h.2.2⟩

/-- C1: a momentum update sets, per element, the velocity to
`mom_coeff * velocity - learning_rate * gradient` and then adds that freshly
updated velocity to the parameter; and the spec scenario holds exactly:
with `learning_rate = 1/10`, `mom_coeff = 9/10`, parameter `[1]` and
velocity `[0]`, one update with gradient `[1]` gives velocity `[-1/10]` and
parameter `[9/10]`, and a second update with gradient `[1]` gives velocity
`[-19/100]` and parameter `[71/100]`. -/
theorem momentum_update_formula (lr c : ℚ) (ps ms gs : List Tensor)
    (i j : ℕ) (x v gr : ℚ)
    (hx : elemAt ps i j = some x) (hv : elemAt ms i j = some v)
    (hg : elemAt gs i j = some gr) :
    elemAt (momentumUpdate lr c ps ms gs).2 i j = some (c * v - lr * gr) ∧
    elemAt (momentumUpdate lr c ps ms gs).1 i j
      = some (x + (c * v - lr * gr)) ∧
    momentumUpdate (1/10) (9/10) [[1]] [[0]] [[1]]
      = ([[9/10]], [[-(1/10)]]) ∧
    momentumUpdate (1/10) (9/10)
        (momentumUpdate (1/10) (9/10) [[1]] [[0]] [[1]]).1
        (momentumUpdate (1/10) (9/10) [[1]] [[0]] [[1]]).2 [[1]]
      = ([[71/100]], [[-(19/100)]]) := by
  rcases Option.bind_eq_some.mp hx with ⟨p, hp, hpx⟩
  rcases Option.bind_eq_some.mp hv with ⟨m, hm, hmx⟩
  rcases Option.bind_eq_some.mp hg with ⟨g, hgl, hgx⟩
  have hres := momentumUpdate_getElem? lr c ps ms gs i p m g hp hm hgl
  have hmscale : (tScale c m)[j]? = some (c * v) :=
    getElem?_map_some m j v hmx
  have hgscale : (tScale lr g)[j]? = some (lr * gr) :=
    getElem?_map_some g j gr hgx
  have hvel : (tSub (tScale c m) (tScale lr g))[j]? = some (c * v - lr * gr) :=
    getElem?_zipWith_some (tScale c m) (tScale lr g) j (c * v) (lr * gr)
      hmscale hgscale
  have hpar : (tAdd p (tSub (tScale c m) (tScale lr g)))[j]?
      = some (x + (c * v - lr * gr)) :=
    getElem?_zipWith_some p (tSub (tScale c m) (tScale lr g)) j x
      (c * v - lr * gr) hpx hvel
  have hstep : momentumUpdate (1/10) (9/10) [[1]] [[0]] [[1]]
      = ([[9/10]], [[-(1/10)]]) := by
    norm_num [momentumUpdate, tSub, tScale, tAdd]
  refine ⟨?_, ?_, hstep, ?_⟩
  · simp [elemAt, hres.1, hvel]
  · simp [elemAt, hres.2, hpar]
  · rw [hstep]
    norm_num [momentumUpdate, tSub, tScale, tAdd]

theorem momentum_update_formula_witness :
    elemAt (momentumUpdate (1/10) (9/10) [[1]] [[0]] [[1]]).2 0 0
      = some (9/10 * 0 - 1/10 * 1) ∧
    elemAt (momentumUpdate (1/10) (9/10) [[1]] [[0]] [[1]]).1 0 0
      = some (1 + (9/10 * 0 - 1/10 * 1)) :=
  have h := momentum_update_formula (1/10) (9/10) [[1]] [[0]] [[1]] 0 0 1 0 1
    (by decide) (by decide) (by decide)
  ⟨h.1, h.2.1⟩

/-- C2: `RMSPropLearningRule.initialise` allocates one all-ones accumulator
per parameter (same count, same shape, every element `1`), and each update
sets, per element, the average to
`decay_rate * average + (1 - decay_rate) * gradient^2` and then subtracts
`learning_rate * gradient / (sqrt(average) + 1e-8)` from the parameter,
where `sqrt` is the elementwise square root (abstract here as `sq`) applied
to the freshly updated average. -/
theorem rmsprop_initialise_update (sq : ℚ → ℚ) (lr d : ℚ)
    (params ps as_ gs : List Tensor) (i j : ℕ) (y x a gr : ℚ)
    (hy : elemAt params i j = some y) (hx : elemAt ps i j = some x)
    (ha : elemAt as_ i j = some a) (hg : elemAt gs i j = some gr) :
    (rmspropInitialise params).length = params.length ∧
    elemAt (rmspropInitialise params) i j = some 1 ∧
    elemAt (rmspropUpdate sq lr d ps as_ gs).2 i j
      = some (d * a + (1 - d) * gr ^ 2) ∧
    elemAt (rmspropUpdate sq lr d ps as_ gs).1 i j
      = some (x - lr * gr / (sq (d * a + (1 - d) * gr ^ 2) + eps)) := by
  have hgg : gr ^ 2 = gr * gr := pow_two gr
  rcases Option.bind_eq_some.mp hy with ⟨q, hq, hqy⟩
  rcases Option.bind_eq_some.mp hx with ⟨p, hp, hpx⟩
  rcases Option.bind_eq_some.mp ha with ⟨b, hb, hbx⟩
  rcases Option.bind_eq_some.mp hg with ⟨g, hgl, hgx⟩
  have hres := rmspropUpdate_getElem? sq lr d ps as_ gs i p b g hp hb hgl
  have hsq : (tSquare g)[j]? = some (gr * gr) := getElem?_map_some g j gr hgx
  have hs1 : (tScale d b)[j]? = some (d * a) := getElem?_map_some b j a hbx
  have hs2 : (tScale (1 - d) (tSquare g))[j]? = some ((1 - d) * (gr * gr)) :=
    getElem?_map_some (tSquare g) j (gr * gr) hsq
  have havg : (tAdd (tScale d b) (tScale (1 - d) (tSquare g)))[j]?
      = some (d * a + (1 - d) * (gr * gr)) :=
    getElem?_zipWith_some (tScale d b) (tScale (1 - d) (tSquare g)) j
      (d * a) ((1 - d) * (gr * gr)) hs1 hs2
  have hmap : ((tAdd (tScale d b) (tScale (1 - d) (tSquare g))).map sq)[j]?
      = some (sq (d * a + (1 - d) * (gr * gr))) :=
    getElem?_map_some _ j _ havg
  have hshift : (tAddConst eps
      ((tAdd (tScale d b) (tScale (1 - d) (tSquare g))).map sq))[j]?
      = some (sq (d * a + (1 - d) * (gr * gr)) + eps) :=
    getElem?_map_some _ j _ hmap
  have hlrg : (tScale lr g)[j]? = some (lr * gr) := getElem?_map_some g j gr hgx
  have hdiv : (tDiv (tScale lr g) (tAddConst eps
      ((tAdd (tScale d b) (tScale (1 - d) (tSquare g))).map sq)))[j]?
      = some (lr * gr / (sq (d * a + (1 - d) * (gr * gr)) + eps)) :=
    getElem?_zipWith_some _ _ j _ _ hlrg hshift
  have hpar : (tSub p (tDiv (tScale lr g) (tAddConst eps
      ((tAdd (tScale d b) (tScale (1 - d) (tSquare g))).map sq))))[j]?
      = some (x - lr * gr / (sq (d * a + (1 - d) * (gr * gr)) + eps)) :=
    getElem?_zipWith_some _ _ j _ _ hpx hdiv
  refine ⟨by simp [rmspropInitialise], ?_, ?_, ?_⟩
  · have hone : (rmspropInitialise params)[i]? = some (onesLike q) :=
      getElem?_map_some params i q hq
    have : (onesLike q)[j]? = some 1 := getElem?_map_some q j y hqy
    simp [elemAt, hone, this]
  · rw [hgg]
    simp [elemAt, hres.1, havg]
  · rw [hgg]
    simp [elemAt, hres.2, hpar]

theorem rmsprop_initialise_update_witness :
    (rmspropInitialise [[7]]).length = 1 ∧
    elemAt (rmspropInitialise [[7]]) 0 0 = some 1 ∧
    elemAt (rmspropUpdate (fun z => z) (1/10) (9/10) [[1]] [[1]] [[2]]).2 0 0
      = some (9/10 * 1 + (1 - 9/10) * 2 ^ 2) :=
  have h := rmsprop_initialise_update (fun z => z) (1/10) (9/10)
    [[7]] [[1]] [[1]] [[2]] 0 0 7 1 1 2
    (by decide) (by decide) (by decide) (by decide)
  ⟨h.1, h.2.1, h.2.2.1⟩

/-- C3: `AdamLearningRule.initialise` allocates an all-zero first-moment and
an all-zero second-moment accumulator per parameter, and each update sets,
per element and in this order, the first moment to
`mom_coeff * mom + (1 - mom_coeff) * gradient`, the second moment to
`decay_rate * average + (1 - decay_rate) * gradient^2`, and then subtracts
`learning_rate * first_moment / (sqrt(second_moment) + 1e-8)` from the
parameter, using the freshly updated moments; no bias-correction factor
appears anywhere in the expression. -/
theorem adam_initialise_update (sq : ℚ → ℚ) (lr c d : ℚ)
    (params ps ms as_ gs : List Tensor) (i j : ℕ) (y x v a gr : ℚ)
    (hy : elemAt params i j = some y) (hx : elemAt ps i j = some x)
    (hv : elemAt ms i j = some v) (ha : elemAt as_ i j = some a)
    (hg : elemAt gs i j = some gr) :
    (adamInitialise params).1.length = params.length ∧
    (adamInitialise params).2.length = params.length ∧
    elemAt (adamInitialise params).1 i j = some 0 ∧
    elemAt (adamInitialise params).2 i j = some 0 ∧
    elemAt (adamUpdate sq lr c d ps ms as_ gs).2.1 i j
      = some (c * v + (1 - c) * gr) ∧
    elemAt (adamUpdate sq lr c d ps ms as_ gs).2.2 i j
      = some (d * a + (1 - d) * gr ^ 2) ∧
    elemAt (adamUpdate sq lr c d ps ms as_ gs).1 i j
      = some (x - lr * (c * v + (1 - c) * gr)
          / (sq (d * a + (1 - d) * gr ^ 2) + eps)) := by
  have hgg : gr ^ 2 = gr * gr := pow_two gr
  rcases Option.bind_eq_some.mp hy with ⟨q, hq, hqy⟩
  rcases Option.bind_eq_some.mp hx with ⟨p, hp, hpx⟩
  rcases Option.bind_eq_some.mp hv with ⟨m, hm, hmx⟩
  rcases Option.bind_eq_some.mp ha with ⟨b, hb, hbx⟩
  rcases Option.bind_eq_some.mp hg with ⟨g, hgl, hgx⟩
  have hres := adamUpdate_getElem? sq lr c d ps ms as_ gs i p m b g hp hm hb hgl
  have hm1 : (tScale c m)[j]? = some (c * v) := getElem?_map_some m j v hmx
  have hm2 : (tScale (1 - c) g)[j]? = some ((1 - c) * gr) :=
    getElem?_map_some g j gr hgx
  have hmom : (tAdd (tScale c m) (tScale (1 - c) g))[j]?
      = some (c * v + (1 - c) * gr) :=
    getElem?_zipWith_some _ _ j _ _ hm1 hm2
  have hsq : (tSquare g)[j]? = some (gr * gr) := getElem?_map_some g j gr hgx
  have hs1 : (tScale d b)[j]? = some (d * a) := getElem?_map_some b j a hbx
  have hs2 : (tScale (1 - d) (tSquare g))[j]? = some ((1 - d) * (gr * gr)) :=
    getElem?_map_some (tSquare g) j (gr * gr) hsq
  have havg : (tAdd (tScale d b) (tScale (1 - d) (tSquare g)))[j]?
      = some (d * a + (1 - d) * (gr * gr)) :=
    getElem?_zipWith_some _ _ j _ _ hs1 hs2
  have hmap : ((tAdd (tScale d b) (tScale (1 - d) (tSquare g))).map sq)[j]?
      = some (sq (d * a + (1 - d) * (gr * gr))) :=
    getElem?_map_some _ j _ havg
  have hshift : (tAddConst eps
      ((tAdd (tScale d b) (tScale (1 - d) (tSquare g))).map sq))[j]?
      = some (sq (d * a + (1 - d) * (gr * gr)) + eps) :=
    getElem?_map_some _ j _ hmap
  have hlrm : (tScale lr (tAdd (tScale c m) (tScale (1 - c) g)))[j]?
      = some (lr * (c * v + (1 - c) * gr)) :=
    getElem?_map_some _ j _ hmom
  have hdiv : (tDiv (tScale lr (tAdd (tScale c m) (tScale (1 - c) g)))
      (tAddConst eps ((tAdd (tScale d b) (tScale (1 - d) (tSquare g))).map sq)))[j]?
      = some (lr * (c * v + (1 - c) * gr)
          / (sq (d * a + (1 - d) * (gr * gr)) + eps)) :=
    getElem?_zipWith_some _ _ j _ _ hlrm hshift
  have hpar : (tSub p (tDiv (tScale lr (tAdd (tScale c m) (tScale (1 - c) g)))
      (tAddConst eps ((tAdd (tScale d b) (tScale (1 - d) (tSquare g))).map sq))))[j]?
      = some (x - lr * (c * v + (1 - c) * gr)
          / (sq (d * a + (1 - d) * (gr * gr)) + eps)) :=
    getElem?_zipWith_some _ _ j _ _ hpx hdiv
  have hz1 : (adamInitialise params).1[i]? = some (zerosLike q) :=
    getElem?_map_some params i q hq
  have hz2 : (adamInitialise params).2[i]? = some (zerosLike q) :=
    getElem?_map_some params i q hq
  have hz0 : (zerosLike q)[j]? = some 0 := getElem?_map_some q j y hqy
  refine ⟨by simp [adamInitialise], by simp [adamInitialise], ?_, ?_, ?_, ?_, ?_⟩
  · simp [elemAt, hz1, hz0]
  · simp [elemAt, hz2, hz0]
  · simp [elemAt, hres.1, hmom]
  · rw [hgg]
    simp [elemAt, hres.2.1, havg]
  · rw [hgg]
    simp [elemAt, hres.2.2, hpar]

theorem adam_initialise_update_witness :
    elemAt (adamInitialise [[3]]).1 0 0 = some 0 ∧
    elemAt (adamUpdate (fun z => z) (1/10) (9/10) (99/100)
      [[1]] [[0]] [[0]] [[1]]).2.1 0 0
      = some (9/10 * 0 + (1 - 9/10) * 1) :=
  have h := adam_initialise_update (fun z => z) (1/10) (9/10) (99/100)
    [[3]] [[1]] [[0]] [[0]] [[1]] 0 0 3 1 0 0 1
    (by decide) (by decide) (by decide) (by decide) (by decide)
  ⟨h.2.2.1, h.2.2.2.2.1⟩

theorem momentum_zero_tensor (lr : ℚ) :
    ∀ (p m g : Tensor), p.length ≤ m.length →
      tAdd p (tSub (tScale 0 m) (tScale lr g)) = tSub p (tScale lr g) := by
  intro p
  induction p with
  | nil => intro m g h; simp [tAdd, tSub]
  | cons x p2 ih =>
    intro m g h
    cases m with
    | nil => simp at h
    | cons y m2 =>
      cases g with
      | nil => simp [tAdd, tSub, tScale]
      | cons z g2 =>
        simp only [tAdd, tSub, tScale, List.map_cons, List.zipWith_cons_cons]
        refine congrArg₂ _ (by ring) ?_
        exact ih m2 g2 (Nat.le_of_succ_le_succ h)

theorem momentum_zero_step (lr : ℚ) :
    ∀ (ps ms gs : List Tensor), ms.length = ps.length →
      (∀ (i : ℕ) (p m : Tensor), ps[i]? = some p → ms[i]? = some m → p.length ≤ m.length) →
      (momentumUpdate lr 0 ps ms gs).1 = gdUpdate lr ps gs ∧
      (momentumUpdate lr 0 ps ms gs).2.length = ps.length ∧
      (∀ (i : ℕ) (p m : Tensor), (momentumUpdate lr 0 ps ms gs).1[i]? = some p →
        (momentumUpdate lr 0 ps ms gs).2[i]? = some m → p.length ≤ m.length) := by
  intro ps
  induction ps with
  | nil =>
    intro ms gs hlen hinv
    have : ms = [] := List.length_eq_zero.mp (by simpa using hlen)
    subst this
    simp [momentumUpdate, gdUpdate]
  | cons p ps2 ih =>
    intro ms gs hlen hinv
    cases ms with
    | nil => simp at hlen
    | cons m ms2 =>
      have hlen2 : ms2.length = ps2.length := by simpa using hlen
      have hinv2 : ∀ (i : ℕ) (p2 m2 : Tensor), ps2[i]? = some p2 → ms2[i]? = some m2 →
          p2.length ≤ m2.length := by
        intro i p2 m2 hp2 hm2
        exact hinv (i + 1) p2 m2 (by simpa using hp2) (by simpa using hm2)
      have hhead : p.length ≤ m.length :=
        hinv 0 p m (by simp) (by simp)
      cases gs with
      | nil =>
        refine ⟨by simp [momentumUpdate, gdUpdate],
          by simp [momentumUpdate]; simpa using hlen, ?_⟩
        simpa [momentumUpdate] using hinv
      | cons g gs2 =>
        have hrec := ih ms2 gs2 hlen2 hinv2
        refine ⟨?_, ?_, ?_⟩
        · simp only [momentumUpdate, gdUpdate]
          refine congrArg₂ _ (momentum_zero_tensor lr p m g hhead) hrec.1
        · simpa [momentumUpdate] using hrec.2.1
        · intro i p2 m2 hp2 hm2
          cases i with
          | zero =>
            simp [momentumUpdate] at hp2 hm2
            subst hp2; subst hm2
            rw [momentum_zero_tensor lr p m g hhead]
            simp [tSub, tScale, List.length_zipWith]
            omega
          | succ i =>
            simp [momentumUpdate] at hp2 hm2
            exact hrec.2.2 i p2 m2 hp2 hm2

theorem momentum_zero_run (lr : ℚ) :
    ∀ (gradSeq : List (List Tensor)) (ps ms : List Tensor),
      ms.length = ps.length →
      (∀ (i : ℕ) (p m : Tensor), ps[i]? = some p → ms[i]? = some m → p.length ≤ m.length) →
      (momentumRun lr 0 ps ms gradSeq).1 = gdRun lr ps gradSeq := by
  intro gradSeq
  induction gradSeq with
  | nil => intro ps ms hlen hinv; simp [momentumRun, gdRun]
  | cons gs rest ih =>
    intro ps ms hlen hinv
    have hstep := momentum_zero_step lr ps ms gs hlen hinv
    have hlen2 : (momentumUpdate lr 0 ps ms gs).2.length
        = (momentumUpdate lr 0 ps ms gs).1.length := by
      rw [hstep.1, hstep.2.1, gdUpdate_length]
    have hrun1 : momentumRun lr 0 ps ms (gs :: rest)
        = momentumRun lr 0 (momentumUpdate lr 0 ps ms gs).1
            (momentumUpdate lr 0 ps ms gs).2 rest := by
      simp [momentumRun]
    have hrun2 : gdRun lr ps (gs :: rest) = gdRun lr (gdUpdate lr ps gs) rest := by
      simp [gdRun]
    rw [hrun1, hrun2, ih _ _ hlen2 hstep.2.2, hstep.1]

/-- C9: with `mom_coeff = 0` the momentum rule degenerates exactly to plain
gradient descent — starting from the all-zero velocities that
`MomentumLearningRule.initialise` allocates, any number of updates with any
gradient sequences leaves the parameters identical to those produced by
`GradientDescentLearningRule` with the same learning rate from the same
initial parameters. -/
theorem momentum_zero_coeff_matches_gd (lr : ℚ) (hlr : 0 < lr)
    (params : List Tensor) (gradSeq : List (List Tensor)) :
    (momentumRun lr 0 params (momentumInitialise params) gradSeq).1
      = gdRun lr params gradSeq := by
  apply momentum_zero_run
  · simp [momentumInitialise]
  · intro i p m hp hm
    have hmap : (momentumInitialise params)[i]? = some (zerosLike p) :=
      getElem?_map_some params i p hp
    rw [hmap] at hm
    have hmz : m = zerosLike p := by
      exact (Option.some_inj.mp hm).symm
    rw [hmz]
    simp [zerosLike]

theorem momentum_zero_coeff_matches_gd_witness :
    (momentumRun 1 0 [[5]] (momentumInitialise [[5]]) [[[2]]]).1
      = gdRun 1 [[5]] [[[2]]] :=
  momentum_zero_coeff_matches_gd 1 (by decide) [[5]] [[[2]]]

theorem squaredAvg_nonneg (d : ℚ) (h0 : 0 ≤ d) (h1 : d ≤ 1) (a g : Tensor)
    (ha : ∀ x ∈ a, 0 ≤ x) :
    ∀ x ∈ tAdd (tScale d a) (tScale (1 - d) (tSquare g)), 0 ≤ x := by
  intro x hx
  rcases mem_zipWith hx with ⟨u, v, hu, hv, hxe⟩
  rcases List.mem_map.mp hu with ⟨w, hw, hwu⟩
  rcases List.mem_map.mp hv with ⟨z, hz, hzv⟩
  rcases List.mem_map.mp hz with ⟨t, ht, htz⟩
  subst hxe
  rw [← hwu, ← hzv, ← htz]
  have h2 : (0 : ℚ) ≤ 1 - d := by linarith
  exact add_nonneg (mul_nonneg h0 (ha w hw))
    (mul_nonneg h2 (mul_self_nonneg t))

theorem rmspropUpdate_nonneg (sq : ℚ → ℚ) (lr d : ℚ)
    (h0 : 0 ≤ d) (h1 : d ≤ 1) :
    ∀ (ps as_ gs : List Tensor), tensorsNonneg as_ →
      tensorsNonneg (rmspropUpdate sq lr d ps as_ gs).2 := by
  intro ps
  induction ps with
  | nil => intro as_ gs h; simpa [rmspropUpdate] using h
  | cons p ps2 ih =>
    intro as_ gs h
    cases as_ with
    | nil => intro t ht; simp [rmspropUpdate] at ht
    | cons a as2 =>
      cases gs with
      | nil => simpa [rmspropUpdate] using h
      | cons g gs2 =>
        intro t ht
        simp only [rmspropUpdate, List.mem_cons] at ht
        rcases ht with ht | ht
        · subst ht
          exact squaredAvg_nonneg d h0 h1 a g
            (h a (List.mem_cons_self a as2))
        · exact ih as2 gs2
            (fun u hu => h u (List.mem_cons_of_mem a hu)) t ht

theorem adamUpdate_nonneg (sq : ℚ → ℚ) (lr c d : ℚ)
    (h0 : 0 ≤ d) (h1 : d ≤ 1) :
    ∀ (ps ms as_ gs : List Tensor), tensorsNonneg as_ →
      tensorsNonneg (adamUpdate sq lr c d ps ms as_ gs).2.2 := by
  intro ps
  induction ps with
  | nil => intro ms as_ gs h; simpa [adamUpdate] using h
  | cons p ps2 ih =>
    intro ms as_ gs h
    cases ms with
    | nil => simpa [adamUpdate] using h
    | cons m ms2 =>
      cases as_ with
      | nil => intro t ht; simp [adamUpdate] at ht
      | cons a as2 =>
        cases gs with
        | nil => simpa [adamUpdate] using h
        | cons g gs2 =>
          intro t ht
          simp only [adamUpdate, List.mem_cons] at ht
          rcases ht with ht | ht
          · subst ht
            exact squaredAvg_nonneg d h0 h1 a g
              (h a (List.mem_cons_self a as2))
          · exact ih ms2 as2 gs2
              (fun u hu => h u (List.mem_cons_of_mem a hu)) t ht

theorem rmspropRun_nonneg (sq : ℚ → ℚ) (lr d : ℚ)
    (h0 : 0 ≤ d) (h1 : d ≤ 1) :
    ∀ (gradSeq : List (List Tensor)) (ps as_ : List Tensor),
      tensorsNonneg as_ → tensorsNonneg (rmspropRun sq lr d ps as_ gradSeq).2 := by
  intro gradSeq
  induction gradSeq with
  | nil => intro ps as_ h; simpa [rmspropRun] using h
  | cons gs rest ih =>
    intro ps as_ h
    have hrun : rmspropRun sq lr d ps as_ (gs :: rest)
        = rmspropRun sq lr d (rmspropUpdate sq lr d ps as_ gs).1
            (rmspropUpdate sq lr d ps as_ gs).2 rest := by
      simp [rmspropRun]
    rw [hrun]
    exact ih _ _ (rmspropUpdate_nonneg sq lr d h0 h1 ps as_ gs h)

theorem adamRun_nonneg (sq : ℚ → ℚ) (lr c d : ℚ)
    (h0 : 0 ≤ d) (h1 : d ≤ 1) :
    ∀ (gradSeq : List (List Tensor)) (ps ms as_ : List Tensor),
      tensorsNonneg as_ →
      tensorsNonneg (adamRun sq lr c d ps ms as_ gradSeq).2.2 := by
  intro gradSeq
  induction gradSeq with
  | nil => intro ps ms as_ h; simpa [adamRun] using h
  | cons gs rest ih =>
    intro ps ms as_ h
    have hrun : adamRun sq lr c d ps ms as_ (gs :: rest)
        = adamRun sq lr c d (adamUpdate sq lr c d ps ms as_ gs).1
            (adamUpdate sq lr c d ps ms as_ gs).2.1
            (adamUpdate sq lr c d ps ms as_ gs).2.2 rest := by
      simp [adamRun]
    rw [hrun]
    exact ih _ _ _ (adamUpdate_nonneg sq lr c d h0 h1 ps ms as_ gs h)

/-- C10: for both RMSProp and Adam with valid hyperparameters, every element
of the second-moment (squared-gradient) accumulator is nonnegative right
after `initialise` (all-ones for RMSProp, all-zeros for Adam) and stays
nonnegative after any number of updates with any gradient sequences and any
elementwise square-root function. -/
theorem second_moment_nonneg (sq : ℚ → ℚ) (lr c d : ℚ)
    (hlr : 0 < lr) (h0c : 0 ≤ c) (h1c : c ≤ 1) (h0d : 0 ≤ d) (h1d : d ≤ 1)
    (params : List Tensor) (gradSeq : List (List Tensor)) :
    tensorsNonneg (rmspropInitialise params) ∧
    tensorsNonneg
      (rmspropRun sq lr d params (rmspropInitialise params) gradSeq).2 ∧
    tensorsNonneg (adamInitialise params).1 ∧
    tensorsNonneg
      (adamRun sq lr c d params (adamInitialise params).2
        (adamInitialise params).1 gradSeq).2.2 := by
  have hones : tensorsNonneg (rmspropInitialise params) := by
    intro t ht x hx
    rcases List.mem_map.mp ht with ⟨q, hq, hqt⟩
    rw [← hqt] at hx
    rcases List.mem_map.mp hx with ⟨z, hz, hzx⟩
    rw [← hzx]
    norm_num
  have hzeros : tensorsNonneg (adamInitialise params).1 := by
    intro t ht x hx
    rcases List.mem_map.mp ht with ⟨q, hq, hqt⟩
    rw [← hqt] at hx
    rcases List.mem_map.mp hx with ⟨z, hz, hzx⟩
    rw [← hzx]
  exact ⟨hones,
    rmspropRun_nonneg sq lr d h0d h1d gradSeq params _ hones,
    hzeros,
    adamRun_nonneg sq lr c d h0d h1d gradSeq params _ _ hzeros⟩

theorem second_moment_nonneg_witness :
    tensorsNonneg (rmspropInitialise [[1]]) ∧
    tensorsNonneg
      (rmspropRun (fun z => z) 1 (1/2) [[1]] (rmspropInitialise [[1]])
        [[[3]]]).2 :=
  have h := second_moment_nonneg (fun z => z) 1 0 (1/2)
    (by norm_num) (by norm_num) (by norm_num) (by norm_num) (by norm_num)
    [[1]] [[[3]]]
  ⟨h.1, h.2.1⟩
